import Mathlib

/-!
Verification of `scripts/marshal_extract.py` (piret repository).

The script is a single bounded linear scan: it reads the input file fully,
tries each byte offset in `range(0, min(32, len(raw)))` as a candidate start
of a marshalled object, and on the first offset where `marshal.loads`
succeeds it re-serialises the recovered object to the output path with
`marshal.dump`, prints one success line and returns 0.  The three exception
types `ValueError, EOFError, TypeError` raised anywhere inside the loop body
skip to the next offset; exhaustion of the offsets prints a failure line and
returns 1; every other exception reaches the outer handler which prints
an error line and returns 1.

The embedding treats the marshal routines as opaque parameters of an
environment `Env`: `loads` maps a byte list to either an object or a Python
exception, `dump` maps an object either to the bytes it writes or to an
exception together with the partial bytes written before raising.  File
contents are byte lists (`List Nat`); the result of a run is an `Outcome`
recording the return value, the printed lines, the final state of the
output file, the offsets tried and the offsets at which a write to the
output path was attempted.
-/

namespace MarshalExtract

/-- Python exception values as far as the script distinguishes them:
the three recoverable classes caught by the inner handler, OS errors,
and everything else.  Each carries its rendered message (`str(e)`). -/
inductive PyErr where
  | valueError : String → PyErr
  | eofError : String → PyErr
  | typeError : String → PyErr
  | osError : String → PyErr
  | other : String → PyErr
deriving DecidableEq, Repr

/-- The message text of an exception, as `str(e)` in Python. -/
def PyErr.msg : PyErr → String
  | .valueError s => s
  | .eofError s => s
  | .typeError s => s
  | .osError s => s
  | .other s => s

/-- Whether an exception is caught by `except (ValueError, EOFError, TypeError)`,
line 19 of the script. -/
def PyErr.recoverable : PyErr → Bool
  | .valueError _ => true
  | .eofError _ => true
  | .typeError _ => true
  | .osError _ => false
  | .other _ => false

/-- One printed line, in structured form. -/
inductive Line where
  | success : Nat → Line
  | exhausted : Line
  | fatal : String → Line
  | usage : Line
deriving DecidableEq, Repr

/-- The exact text of each printed line, from the format strings of the
script (lines 17, 22, 25, 30). -/
def Line.render : Line → String
  | .success off => "[+] Code object extracted (header_offset=" ++ toString off ++ " bytes)"
  | .exhausted => "[-] Failed to extract valid code object"
  | .fatal m => "[-] Error: " ++ m
  | .usage => "Usage: marshal_extract.py <input.pyc> <output.marshaled>"

/-- The environment a run executes in, with the host facilities the script
delegates to kept opaque.  `raw` is the result of `open(pyc_path).read()`;
`loads` is `marshal.loads`; `dump c` is the effect of
`open(output_path, 'wb')` followed by `marshal.dump(c, out)`: on success
the bytes the output file holds afterwards, on failure the raised
exception together with the partial bytes written before it was raised;
`openOutErr` is the exception raised by `open(output_path, 'wb')` itself,
if any. -/
structure Env (Obj : Type) where
  raw : Except PyErr (List Nat)
  loads : List Nat → Except PyErr Obj
  dump : Obj → Except (PyErr × List Nat) (List Nat)
  openOutErr : Option PyErr

/-- The observable result of one run. `outFile` is the content of the
output file at the end (`none` when it does not exist), `offsetsTried`
the loop indices executed in order, `writeOffsets` the offsets at which
the script reached `open(output_path, 'wb')`, `successOffset` the offset
reported on success, and `inputRead` whether the input path was opened. -/
structure Outcome where
  ret : Nat
  stdout : List Line
  stderr : List Line
  outFile : Option (List Nat)
  offsetsTried : List Nat
  writeOffsets : List Nat
  successOffset : Option Nat
  inputRead : Bool
deriving DecidableEq, Repr

/-- Result of one loop iteration: success carrying the recovered object and
the bytes written, a silent skip to the next offset, or a fatal exception
propagating to the outer handler. -/
inductive StepRes (Obj : Type) where
  | success : Obj → List Nat → StepRes Obj
  | skip : StepRes Obj
  | fatal : PyErr → StepRes Obj

/-- State after one loop iteration: new output-file content, whether a
write to the output path was attempted, and how the iteration ended. -/
structure TryRes (Obj : Type) where
  outF : Option (List Nat)
  wrote : Bool
  res : StepRes Obj

variable {Obj : Type}

/-- One iteration of the loop body (lines 13-20 of the script) at a given
offset: `marshal.loads(raw[offset:])`, then on success
`open(output_path, 'wb')` and `marshal.dump`.  An exception with
`PyErr.recoverable` lands in the `except (ValueError, EOFError, TypeError)`
handler and skips; any other exception is fatal. -/
def tryOffset (env : Env Obj) (raw : List Nat) (offset : Nat)
    (outF : Option (List Nat)) : TryRes Obj :=
  match env.loads (raw.drop offset) with
  | .error e => ⟨outF, false, if e.recoverable then .skip else .fatal e⟩
  | .ok code =>
    match env.openOutErr with
    | some e => ⟨outF, true, if e.recoverable then .skip else .fatal e⟩
    | none =>
      match env.dump code with
      | .ok bytes => ⟨some bytes, true, .success code bytes⟩
      | .error (e, part) => ⟨some part, true, if e.recoverable then .skip else .fatal e⟩

/-- The scan loop (lines 12-23 of the script) over the remaining candidate
offsets, accumulating the offsets tried and the write attempts in reverse. -/
def scan (env : Env Obj) (raw : List Nat) (offs : List Nat)
    (outF : Option (List Nat)) (tried wrts : List Nat) : Outcome :=
  match offs with
  | [] =>
    { ret := 1, stdout := [], stderr := [Line.exhausted], outFile := outF,
      offsetsTried := tried.reverse, writeOffsets := wrts.reverse,
      successOffset := none, inputRead := true }
  | o :: rest =>
    let r := tryOffset env raw o outF
    let tried' := o :: tried
    let wrts' := if r.wrote then o :: wrts else wrts
    match r.res with
    | .success _ _ =>
      { ret := 0, stdout := [Line.success o], stderr := [], outFile := r.outF,
        offsetsTried := tried'.reverse, writeOffsets := wrts'.reverse,
        successOffset := some o, inputRead := true }
    | .skip => scan env raw rest r.outF tried' wrts'
    | .fatal e =>
      { ret := 1, stdout := [], stderr := [Line.fatal e.msg], outFile := r.outF,
        offsetsTried := tried'.reverse, writeOffsets := wrts'.reverse,
        successOffset := none, inputRead := true }

/-- The function `extract_code_object` (lines 6-26 of the script), with
`init` the content of the output path before the run. -/
def extract_code_object (env : Env Obj) (init : Option (List Nat)) : Outcome :=
  match env.raw with
  | .error e =>
    { ret := 1, stdout := [], stderr := [Line.fatal e.msg], outFile := init,
      offsetsTried := [], writeOffsets := [], successOffset := none,
      inputRead := true }
  | .ok raw => scan env raw (List.range (min 32 raw.length)) init [] []

/-- The `__main__` block (lines 28-32 of the script): with an argument
vector of length other than 3 (program name plus two arguments) it prints
the usage line and exits 1 without touching any file. -/
def main_run (argv : List String) (env : Env Obj) (init : Option (List Nat)) :
    Outcome :=
  if argv.length = 3 then extract_code_object env init
  else
    { ret := 1, stdout := [], stderr := [Line.usage], outFile := init,
      offsetsTried := [], writeOffsets := [], successOffset := none,
      inputRead := false }

/-! Concrete environments used to exercise the theorems on closed inputs.
The object type is `Nat`, standing for an opaque recovered code object. -/

/-- An environment with input bytes `[7, 7, 7]` whose `loads` succeeds
exactly on a slice of length 3 (hence at offset 0) and fails with a
`ValueError` otherwise; writing always succeeds. -/
def envOk : Env Nat :=
  { raw := .ok [7, 7, 7],
    loads := fun b =>
      if b.length = 3 then .ok 5 else .error (.valueError "bad marshal data"),
    dump := fun c => .ok [c],
    openOutErr := none }

/-- An environment with input bytes `[1, 2, 3]` in which every offset
fails with a recoverable `ValueError`. -/
def envFail : Env Nat :=
  { raw := .ok [1, 2, 3],
    loads := fun _ => .error (.valueError "bad marshal data"),
    dump := fun c => .ok [c],
    openOutErr := none }

/-- A byte-for-byte copy of `envFail`, for the determinism claim. -/
def envFailCopy : Env Nat :=
  { raw := .ok [1, 2, 3],
    loads := fun _ => .error (.valueError "bad marshal data"),
    dump := fun c => .ok [c],
    openOutErr := none }

/-- An environment whose input path cannot be opened. -/
def envNoFile : Env Nat :=
  { raw := .error (.osError "No such file or directory: in.pyc"),
    loads := fun _ => .error (.valueError "bad marshal data"),
    dump := fun c => .ok [c],
    openOutErr := none }

/-- An environment where `loads` succeeds at offset 0 but `dump` raises a
recoverable `ValueError` after truncating the output file to empty. -/
def envDumpFail : Env Nat :=
  { raw := .ok [1, 2],
    loads := fun b =>
      if b.length = 2 then .ok 5
      else .error (.eofError "EOF read where object expected"),
    dump := fun _ => .error (.valueError "unmarshallable object", []),
    openOutErr := none }

/-- An environment where `loads` raises a non-recoverable exception. -/
def envFatal : Env Nat :=
  { raw := .ok [1, 2],
    loads := fun _ =>
      .error (.other "maximum recursion depth exceeded"),
    dump := fun c => .ok [c],
    openOutErr := none }

/-- An environment with an empty input file. -/
def envEmpty : Env Nat :=
  { raw := .ok [],
    loads := fun _ => .error (.valueError "bad marshal data"),
    dump := fun c => .ok [c],
    openOutErr := none }

/-- An environment whose `loads` and `dump` satisfy the round-trip law:
`dump c` writes `[c]` and `loads` on a one-byte slice recovers that byte. -/
def envRt : Env Nat :=
  { raw := .ok [9],
    loads := fun b =>
      if b.length = 1 then .ok (b.headD 0)
      else .error (.valueError "bad marshal data"),
    dump := fun c => .ok [c],
    openOutErr := none }

/-! Helper lemmas about the scan loop. -/

/-- Splitting the offset range at an interior point `k`: the offsets after
`k` are `k + 1 + i` for `i` below the remaining count. -/
theorem range_split (k n : Nat) (h : k < n) :
    List.range n
      = List.range k ++ k :: (List.range (n - (k + 1))).map (fun i => k + 1 + i) := by
  induction n with
  | zero => omega
  | succ m ih =>
    rcases Nat.lt_or_ge k m with hk | hk
    · rw [List.range_succ, ih hk]
      have hm : m - (k + 1) + 1 = m + 1 - (k + 1) := by omega
      rw [← hm, List.range_succ, List.map_append]
      simp only [List.map_cons, List.map_nil]
      have : k + 1 + (m - (k + 1)) = m := by omega
      rw [this]
      simp
    · have hkm : k = m := by omega
      subst hkm
      rw [List.range_succ]
      simp

/-- Offsets at which `marshal.loads` fails with a recoverable exception are
skipped silently: the scan over such a block reduces to the scan over the
remaining offsets, with the output file untouched and no write attempted. -/
theorem scan_skip_all (env : Env Obj) (raw : List Nat) (offs rest : List Nat)
    (outF : Option (List Nat)) (tried wrts : List Nat)
    (h : ∀ o ∈ offs, ∃ e, env.loads (raw.drop o) = .error e ∧ e.recoverable = true) :
    scan env raw (offs ++ rest) outF tried wrts
      = scan env raw rest outF (offs.reverse ++ tried) wrts := by
  induction offs generalizing tried with
  | nil => simp
  | cons o os ih =>
    obtain ⟨e, he, hrec⟩ := h o (by simp)
    have step : scan env raw ((o :: os) ++ rest) outF tried wrts
        = scan env raw (os ++ rest) outF (o :: tried) wrts := by
      simp [scan, tryOffset, he, hrec]
    rw [step, ih (o :: tried) (fun o ho => h o (List.mem_cons_of_mem _ ho))]
    simp

/-- A head offset where `marshal.loads` succeeds and the write succeeds
produces the success outcome immediately. -/
theorem scan_success_head (env : Env Obj) (raw : List Nat) (o : Nat)
    (rest : List Nat) (outF : Option (List Nat)) (tried wrts : List Nat)
    (code : Obj) (bytes : List Nat)
    (hl : env.loads (raw.drop o) = .ok code)
    (ho : env.openOutErr = none)
    (hd : env.dump code = .ok bytes) :
    scan env raw (o :: rest) outF tried wrts
      = { ret := 0, stdout := [Line.success o], stderr := [],
          outFile := some bytes,
          offsetsTried := tried.reverse ++ [o],
          writeOffsets := wrts.reverse ++ [o],
          successOffset := some o, inputRead := true } := by
  simp [scan, tryOffset, hl, ho, hd]

/-- A head offset where `marshal.loads` fails with a non-recoverable
exception aborts the scan with the fatal outcome. -/
theorem scan_fatal_head (env : Env Obj) (raw : List Nat) (o : Nat)
    (rest : List Nat) (outF : Option (List Nat)) (tried wrts : List Nat)
    (e : PyErr)
    (hl : env.loads (raw.drop o) = .error e)
    (hrec : e.recoverable = false) :
    scan env raw (o :: rest) outF tried wrts
      = { ret := 1, stdout := [], stderr := [Line.fatal e.msg], outFile := outF,
          offsetsTried := tried.reverse ++ [o],
          writeOffsets := wrts.reverse,
          successOffset := none, inputRead := true } := by
  simp [scan, tryOffset, hl, hrec]

/-- The offsets tried by the scan are an in-order prefix of the candidate
offsets handed to it. -/
theorem scan_tried (env : Env Obj) (raw : List Nat) (offs : List Nat)
    (outF : Option (List Nat)) (tried wrts : List Nat) :
    ∃ m, m ≤ offs.length ∧
      (scan env raw offs outF tried wrts).offsetsTried
        = tried.reverse ++ offs.take m := by
  induction offs generalizing outF tried wrts with
  | nil => exact ⟨0, by simp, by simp [scan]⟩
  | cons o os ih =>
    rcases hr : (tryOffset env raw o outF).res with _ | _ | e
    · exact ⟨1, by simp, by simp [scan, hr]⟩
    · obtain ⟨m, hm, hm2⟩ := ih (tryOffset env raw o outF).outF (o :: tried)
        (if (tryOffset env raw o outF).wrote then o :: wrts else wrts)
      refine ⟨m + 1, by simpa using hm, ?_⟩
      have hs : scan env raw (o :: os) outF tried wrts
          = scan env raw os (tryOffset env raw o outF).outF (o :: tried)
              (if (tryOffset env raw o outF).wrote then o :: wrts else wrts) := by
        simp [scan, hr]
      rw [hs, hm2]
      simp
    · exact ⟨1, by simp, by simp [scan, hr]⟩

/-- When opening the output path and serialising always succeed, a run of
the scan either succeeds at some offset, printing exactly the one success
line and performing exactly one write there, or returns 1 with nothing on
standard output and no write performed. -/
theorem scan_write_shape (env : Env Obj) (raw : List Nat) (offs : List Nat)
    (outF : Option (List Nat)) (tried wrts : List Nat)
    (hopen : env.openOutErr = none)
    (hdump : ∀ c, ∃ b, env.dump c = .ok b) :
    (∃ o, (scan env raw offs outF tried wrts).ret = 0 ∧
        (scan env raw offs outF tried wrts).stdout = [Line.success o] ∧
        (scan env raw offs outF tried wrts).writeOffsets = wrts.reverse ++ [o]) ∨
      ((scan env raw offs outF tried wrts).ret = 1 ∧
        (scan env raw offs outF tried wrts).stdout = [] ∧
        (scan env raw offs outF tried wrts).writeOffsets = wrts.reverse) := by
  induction offs generalizing outF tried with
  | nil => right; simp [scan]
  | cons o os ih =>
    rcases hl : env.loads (raw.drop o) with e | c
    · rcases hrec : e.recoverable with _ | _
      · right
        simp [scan, tryOffset, hl, hrec, PyErr.msg]
      · have hs : scan env raw (o :: os) outF tried wrts
            = scan env raw os outF (o :: tried) wrts := by
          simp [scan, tryOffset, hl, hrec]
        rw [hs]; exact ih outF (o :: tried)
    · obtain ⟨b, hb⟩ := hdump c
      left
      exact ⟨o, by simp [scan, tryOffset, hl, hopen, hb]⟩

/-- If the scan reports success at offset `k`, then `marshal.loads`
succeeded on `raw[k:]`, `marshal.dump` of the recovered object wrote some
bytes, and those bytes are exactly the final content of the output file. -/
theorem scan_success_inv (env : Env Obj) (raw : List Nat) (offs : List Nat)
    (outF : Option (List Nat)) (tried wrts : List Nat) (k : Nat)
    (h : (scan env raw offs outF tried wrts).successOffset = some k) :
    ∃ c b, env.loads (raw.drop k) = .ok c ∧ env.dump c = .ok b ∧
      (scan env raw offs outF tried wrts).outFile = some b := by
  induction offs generalizing outF tried wrts with
  | nil => simp [scan] at h
  | cons o os ih =>
    rcases hl : env.loads (raw.drop o) with e | c
    · rcases hrec : e.recoverable with _ | _
      · simp [scan, tryOffset, hl, hrec] at h
      · have hs : scan env raw (o :: os) outF tried wrts
            = scan env raw os outF (o :: tried) wrts := by
          simp [scan, tryOffset, hl, hrec]
        rw [hs] at h ⊢
        exact ih outF (o :: tried) wrts h
    · rcases ho : env.openOutErr with _ | e
      · rcases hd : env.dump c with p | b
        · rcases p with ⟨e, part⟩
          rcases hrec : e.recoverable with _ | _
          · simp [scan, tryOffset, hl, ho, hd, hrec] at h
          · have hs : scan env raw (o :: os) outF tried wrts
                = scan env raw os (some part) (o :: tried) (o :: wrts) := by
              simp [scan, tryOffset, hl, ho, hd, hrec]
            rw [hs] at h ⊢
            exact ih (some part) (o :: tried) (o :: wrts) h
        · have hk : k = o := by
            simp [scan, tryOffset, hl, ho, hd] at h
            omega
          subst hk
          exact ⟨c, b, hl, hd, by simp [scan, tryOffset, hl, ho, hd]⟩
      · rcases hrec : e.recoverable with _ | _
        · simp [scan, tryOffset, hl, ho, hrec] at h
        · have hs : scan env raw (o :: os) outF tried wrts
              = scan env raw os outF (o :: tried) (o :: wrts) := by
            simp [scan, tryOffset, hl, ho, hrec]
          rw [hs] at h ⊢
          exact ih outF (o :: tried) (o :: wrts) h

/-! Claim theorems. -/

/-- C9: for an empty input file the loop body never runs;
`extract_code_object` returns 1 through the exhaustion path, prints the
exhaustion line to standard error and never touches the output path. -/
theorem c9_empty_input (env : Env Obj) (init : Option (List Nat))
    (hraw : env.raw = .ok []) :
    extract_code_object env init
      = { ret := 1, stdout := [], stderr := [Line.exhausted], outFile := init,
          offsetsTried := [], writeOffsets := [], successOffset := none,
          inputRead := true }
    ∧ Line.exhausted.render = "[-] Failed to extract valid code object" := by
  refine ⟨?_, rfl⟩
  simp [extract_code_object, hraw, scan]

/-- Witness for C9 at the concrete empty-input environment. -/
theorem c9_empty_input_witness :
    extract_code_object envEmpty none
      = { ret := 1, stdout := [], stderr := [Line.exhausted], outFile := none,
          offsetsTried := [], writeOffsets := [], successOffset := none,
          inputRead := true } :=
  (c9_empty_input envEmpty none rfl).1

/-- C7: with an argument vector whose length is not 3 (program name plus
two arguments) the program prints the usage line to standard error, exits
with status 1, and performs no file access at all. -/
theorem c7_usage (argv : List String) (env : Env Obj) (init : Option (List Nat))
    (h : argv.length ≠ 3) :
    main_run argv env init
      = { ret := 1, stdout := [], stderr := [Line.usage], outFile := init,
          offsetsTried := [], writeOffsets := [], successOffset := none,
          inputRead := false }
    ∧ Line.usage.render
        = "Usage: marshal_extract.py <input.pyc> <output.marshaled>" := by
  refine ⟨?_, rfl⟩
  simp [main_run, h]

/-- Witness for C7 at an argument vector of length 1. -/
theorem c7_usage_witness :
    main_run ["marshal_extract.py"] envEmpty none
      = { ret := 1, stdout := [], stderr := [Line.usage], outFile := none,
          offsetsTried := [], writeOffsets := [], successOffset := none,
          inputRead := false } :=
  (c7_usage ["marshal_extract.py"] envEmpty none (by decide)).1

/-- C2: when every candidate offset fails with one of the three
recoverable deserialization errors, `extract_code_object` returns 1,
prints exactly the exhaustion line to standard error, performs no write,
and leaves the output file in its initial state. -/
theorem c2_exhaustion (env : Env Obj) (raw : List Nat) (init : Option (List Nat))
    (hraw : env.raw = .ok raw)
    (hall : ∀ o, o < min 32 raw.length →
      ∃ e, env.loads (raw.drop o) = .error e ∧ e.recoverable = true) :
    extract_code_object env init
      = { ret := 1, stdout := [], stderr := [Line.exhausted], outFile := init,
          offsetsTried := List.range (min 32 raw.length), writeOffsets := [],
          successOffset := none, inputRead := true }
    ∧ Line.exhausted.render = "[-] Failed to extract valid code object" := by
  refine ⟨?_, rfl⟩
  have h1 : scan env raw (List.range (min 32 raw.length) ++ []) init [] []
      = scan env raw [] init ((List.range (min 32 raw.length)).reverse ++ []) [] :=
    scan_skip_all env raw (List.range (min 32 raw.length)) [] init [] []
      (fun o ho => hall o (List.mem_range.mp ho))
  simp only [List.append_nil] at h1
  simp [extract_code_object, hraw, h1, scan]

/-- Witness for C2 at the concrete all-offsets-fail environment. -/
theorem c2_exhaustion_witness :
    extract_code_object envFail none
      = { ret := 1, stdout := [], stderr := [Line.exhausted], outFile := none,
          offsetsTried := List.range 3, writeOffsets := [],
          successOffset := none, inputRead := true } :=
  (c2_exhaustion envFail [1, 2, 3] none rfl
    (fun _ _ => ⟨.valueError "bad marshal data", rfl, rfl⟩)).1

/-- C5: for an input shorter than 32 bytes the candidate offsets are
bounded by the input length: the offsets tried are an in-order prefix of
`0 .. length-1`, every offset tried is strictly below the length, and when
every offset fails recoverably the offsets tried are exactly
`0 .. length-1`. -/
theorem c5_short_input (env : Env Obj) (raw : List Nat) (init : Option (List Nat))
    (hraw : env.raw = .ok raw) (hshort : raw.length < 32) :
    (∃ rest, List.range raw.length
        = (extract_code_object env init).offsetsTried ++ rest)
    ∧ (∀ o ∈ (extract_code_object env init).offsetsTried, o < raw.length)
    ∧ ((∀ o, o < raw.length →
          ∃ e, env.loads (raw.drop o) = .error e ∧ e.recoverable = true) →
        (extract_code_object env init).offsetsTried = List.range raw.length) := by
  have hmin : min 32 raw.length = raw.length := by omega
  have hext : extract_code_object env init
      = scan env raw (List.range raw.length) init [] [] := by
    simp [extract_code_object, hraw, hmin]
  obtain ⟨m, hm, hm2⟩ := scan_tried env raw (List.range raw.length) init [] []
  rw [hext, hm2]
  simp only [List.reverse_nil, List.nil_append]
  refine ⟨⟨(List.range raw.length).drop m, (List.take_append_drop m _).symm⟩, ?_, ?_⟩
  · intro o ho
    exact List.mem_range.mp (List.take_subset m _ ho)
  · intro hall
    have h1 : scan env raw (List.range raw.length ++ []) init [] []
        = scan env raw [] init ((List.range raw.length).reverse ++ []) [] :=
      scan_skip_all env raw (List.range raw.length) [] init [] []
        (fun o ho => hall o (List.mem_range.mp ho))
    simp only [List.append_nil] at h1
    have h2 : (scan env raw (List.range raw.length) init [] []).offsetsTried
        = List.range raw.length := by
      rw [h1]; simp [scan]
    rw [hm2] at h2
    simpa using h2

/-- Witness for C5 at the concrete three-byte all-offsets-fail environment. -/
theorem c5_short_input_witness :
    (extract_code_object envFail none).offsetsTried = List.range 3 := by
  have h := c5_short_input envFail [1, 2, 3] none rfl (by decide)
  exact h.2.2 (fun _ _ => ⟨.valueError "bad marshal data", rfl, rfl⟩)

/-- C1: when `k` is the smallest candidate offset at which `marshal.loads`
succeeds (every earlier offset failing with a recoverable error) and the
write path succeeds, `extract_code_object` returns 0, reports
`header_offset=k`, attempts exactly one write — at offset `k`, never at
any smaller offset — and the output file holds the serialisation of the
object recovered at offset `k`. -/
theorem c1_least_offset (env : Env Obj) (raw : List Nat) (init : Option (List Nat))
    (k : Nat) (code : Obj)
    (hraw : env.raw = .ok raw)
    (hk : k < min 32 raw.length)
    (hsucc : env.loads (raw.drop k) = .ok code)
    (hmin : ∀ j, j < k →
      ∃ e, env.loads (raw.drop j) = .error e ∧ e.recoverable = true)
    (hopen : env.openOutErr = none)
    (hdump : ∀ c, ∃ b, env.dump c = .ok b) :
    (extract_code_object env init).ret = 0
    ∧ (extract_code_object env init).successOffset = some k
    ∧ (extract_code_object env init).stdout = [Line.success k]
    ∧ (extract_code_object env init).writeOffsets = [k]
    ∧ ∃ b, env.dump code = .ok b
        ∧ (extract_code_object env init).outFile = some b := by
  obtain ⟨b, hb⟩ := hdump code
  have hsplit := range_split k (min 32 raw.length) hk
  have hskip : scan env raw
        (List.range k
          ++ k :: (List.range (min 32 raw.length - (k + 1))).map (fun i => k + 1 + i))
        init [] []
      = scan env raw
        (k :: (List.range (min 32 raw.length - (k + 1))).map (fun i => k + 1 + i))
        init ((List.range k).reverse ++ []) [] :=
    scan_skip_all env raw (List.range k) _ init [] []
      (fun j hj => hmin j (List.mem_range.mp hj))
  have hext : extract_code_object env init
      = scan env raw
        (k :: (List.range (min 32 raw.length - (k + 1))).map (fun i => k + 1 + i))
        init (List.range k).reverse [] := by
    simp only [extract_code_object, hraw, hsplit]
    rw [hskip]
    simp
  rw [hext,
    scan_success_head env raw k _ init (List.range k).reverse [] code b hsucc hopen hb]
  exact ⟨rfl, rfl, rfl, rfl, b, hb, rfl⟩

/-- Witness for C1 at the concrete environment succeeding at offset 0. -/
theorem c1_least_offset_witness :
    (extract_code_object envOk none).ret = 0
    ∧ (extract_code_object envOk none).successOffset = some 0
    ∧ (extract_code_object envOk none).stdout = [Line.success 0]
    ∧ (extract_code_object envOk none).writeOffsets = [0] := by
  have h := c1_least_offset envOk [7, 7, 7] none 0 5 rfl (by decide) rfl
    (fun j hj => absurd hj (Nat.not_lt_zero j)) rfl (fun c => ⟨[c], rfl⟩)
  exact ⟨h.1, h.2.1, h.2.2.1, h.2.2.2.1⟩

/-- C3: the error-handling policy.  (1) An exception is recoverable
exactly when it is a `ValueError`, `EOFError` or `TypeError`; (2) an
offset whose deserialization fails with a recoverable exception is
skipped silently, touching no file; (3) a non-recoverable exception
aborts the scan at that offset with return value 1 and the error line —
a line distinct from the exhaustion line; (4) a failure to read the input
path (for example a non-existent file) yields return value 1 and an error
line whose text contains the underlying failure reason. -/
theorem c3_error_policy :
    (∀ (e : PyErr), e.recoverable = true ↔
        (∃ s, e = .valueError s) ∨ (∃ s, e = .eofError s) ∨ (∃ s, e = .typeError s))
    ∧ (∀ (env : Env Obj) (raw : List Nat) (o : Nat) (outF : Option (List Nat))
        (e : PyErr),
        env.loads (raw.drop o) = .error e → e.recoverable = true →
        tryOffset env raw o outF = ⟨outF, false, .skip⟩)
    ∧ (∀ (env : Env Obj) (raw : List Nat) (o : Nat) (rest : List Nat)
        (outF : Option (List Nat)) (tried wrts : List Nat) (e : PyErr),
        env.loads (raw.drop o) = .error e → e.recoverable = false →
        (scan env raw (o :: rest) outF tried wrts).ret = 1
        ∧ (scan env raw (o :: rest) outF tried wrts).stderr = [Line.fatal e.msg]
        ∧ Line.fatal e.msg ≠ Line.exhausted)
    ∧ (∀ (env : Env Obj) (init : Option (List Nat)) (e : PyErr),
        env.raw = .error e →
        (extract_code_object env init).ret = 1
        ∧ (extract_code_object env init).stderr = [Line.fatal e.msg]
        ∧ ∃ pre, (Line.fatal e.msg).render = pre ++ e.msg) := by
  refine ⟨?_, ?_, ?_, ?_⟩
  · intro e
    cases e <;> simp [PyErr.recoverable]
  · intro env raw o outF e h1 h2
    simp [tryOffset, h1, h2]
  · intro env raw o rest outF tried wrts e h1 h2
    rw [scan_fatal_head env raw o rest outF tried wrts e h1 h2]
    exact ⟨rfl, rfl, by simp⟩
  · intro env init e h
    exact ⟨by simp [extract_code_object, h], by simp [extract_code_object, h],
      "[-] Error: ", rfl⟩

/-- Witness for C3 at concrete environments: a recoverable skip, a fatal
abort, and a missing input file. -/
theorem c3_error_policy_witness :
    tryOffset envFail [1, 2, 3] 0 none
      = ⟨none, false, StepRes.skip⟩
    ∧ (scan envFatal [1, 2] [0, 1] none [] []).stderr
      = [Line.fatal "maximum recursion depth exceeded"]
    ∧ (extract_code_object envNoFile none).ret = 1 := by
  refine ⟨?_, ?_, ?_⟩
  · exact (@c3_error_policy Nat).2.1 envFail [1, 2, 3] 0 none
      (.valueError "bad marshal data") rfl rfl
  · exact ((@c3_error_policy Nat).2.2.1 envFatal [1, 2] 0 [1] none [] []
      (.other "maximum recursion depth exceeded") rfl rfl).2.1
  · exact ((@c3_error_policy Nat).2.2.2 envNoFile none
      (.osError "No such file or directory: in.pyc") rfl).1

/-- C6: in every run the offsets tried are `0, 1, 2, ...` in increasing
order (they equal `List.range` of their count); and when the write path
succeeds, a run that returns 0 wrote the output file exactly once and
printed exactly one line to standard output. -/
theorem c6_invariants (env : Env Obj) (init : Option (List Nat))
    (hopen : env.openOutErr = none)
    (hdump : ∀ c, ∃ b, env.dump c = .ok b) :
    (extract_code_object env init).offsetsTried
        = List.range (extract_code_object env init).offsetsTried.length
    ∧ ((extract_code_object env init).ret = 0 →
        (extract_code_object env init).writeOffsets.length = 1
        ∧ (extract_code_object env init).stdout.length = 1) := by
  rcases hraw : env.raw with e | raw
  · constructor
    · simp [extract_code_object, hraw]
    · intro h0
      simp [extract_code_object, hraw] at h0
  · have hext : extract_code_object env init
        = scan env raw (List.range (min 32 raw.length)) init [] [] := by
      simp [extract_code_object, hraw]
    constructor
    · obtain ⟨m, hm, hm2⟩ :=
        scan_tried env raw (List.range (min 32 raw.length)) init [] []
      rw [hext, hm2]
      simp [List.take_range]
    · intro h0
      rcases scan_write_shape env raw (List.range (min 32 raw.length)) init [] []
          hopen hdump with ⟨o, _, hstd, hw⟩ | ⟨h1, _, _⟩
      · rw [hext, hw, hstd]
        simp
      · rw [hext, h1] at h0
        omega

/-- Witness for C6 at the concrete environment succeeding at offset 0. -/
theorem c6_invariants_witness :
    (extract_code_object envOk none).offsetsTried
        = List.range (extract_code_object envOk none).offsetsTried.length
    ∧ (extract_code_object envOk none).writeOffsets.length = 1 := by
  have h := c6_invariants envOk none rfl (fun c => ⟨[c], rfl⟩)
  exact ⟨h.1, (h.2 (by decide)).1⟩

/-- C8: a recoverable exception raised while writing the output (here:
`marshal.dump` failing with a `ValueError` after the output file was
opened and truncated) does not abort the run — the scan continues with
the following offsets — yet the output file keeps the partial bytes even
though the run ends reporting exhaustion.  The offsets tried are the full
candidate range, so offset `k + 1` is tried whenever it is in range, and
a write was attempted at offset `k`. -/
theorem c8_write_failure_continues (env : Env Obj) (raw : List Nat)
    (init : Option (List Nat)) (k : Nat) (code : Obj) (e : PyErr) (part : List Nat)
    (hraw : env.raw = .ok raw)
    (hk : k < min 32 raw.length)
    (hload : env.loads (raw.drop k) = .ok code)
    (hothers : ∀ j, j < min 32 raw.length → j ≠ k →
      ∃ e2, env.loads (raw.drop j) = .error e2 ∧ e2.recoverable = true)
    (hopen : env.openOutErr = none)
    (hdump : env.dump code = .error (e, part))
    (hrec : e.recoverable = true) :
    (extract_code_object env init).ret = 1
    ∧ (extract_code_object env init).stderr = [Line.exhausted]
    ∧ (extract_code_object env init).outFile = some part
    ∧ (extract_code_object env init).offsetsTried = List.range (min 32 raw.length)
    ∧ k ∈ (extract_code_object env init).writeOffsets := by
  have hsplit := range_split k (min 32 raw.length) hk
  have hskip : scan env raw
        (List.range k
          ++ k :: (List.range (min 32 raw.length - (k + 1))).map (fun i => k + 1 + i))
        init [] []
      = scan env raw
        (k :: (List.range (min 32 raw.length - (k + 1))).map (fun i => k + 1 + i))
        init ((List.range k).reverse ++ []) [] :=
    scan_skip_all env raw (List.range k) _ init [] []
      (fun j hj => by
        have hj2 := List.mem_range.mp hj
        exact hothers j (by omega) (by omega))
  have hstep : scan env raw
        (k :: (List.range (min 32 raw.length - (k + 1))).map (fun i => k + 1 + i))
        init (List.range k).reverse []
      = scan env raw
        ((List.range (min 32 raw.length - (k + 1))).map (fun i => k + 1 + i))
        (some part) (k :: (List.range k).reverse) [k] := by
    simp [scan, tryOffset, hload, hopen, hdump, hrec]
  have htail : scan env raw
        ((List.range (min 32 raw.length - (k + 1))).map (fun i => k + 1 + i) ++ [])
        (some part) (k :: (List.range k).reverse) [k]
      = scan env raw [] (some part)
        (((List.range (min 32 raw.length - (k + 1))).map (fun i => k + 1 + i)).reverse
          ++ (k :: (List.range k).reverse)) [k] :=
    scan_skip_all env raw _ [] (some part) _ [k]
      (fun j hj => by
        obtain ⟨i, hi, hij⟩ := List.mem_map.mp hj
        have hi2 := List.mem_range.mp hi
        exact hothers j (by omega) (by omega))
  simp only [List.append_nil] at htail
  have hext : extract_code_object env init
      = scan env raw [] (some part)
        (((List.range (min 32 raw.length - (k + 1))).map (fun i => k + 1 + i)).reverse
          ++ (k :: (List.range k).reverse)) [k] := by
    simp only [extract_code_object, hraw, hsplit]
    rw [hskip]
    simp only [List.append_nil]
    rw [hstep, htail]
  rw [hext]
  refine ⟨rfl, rfl, rfl, ?_, ?_⟩
  · simp only [scan]
    rw [List.reverse_append, List.reverse_reverse, List.reverse_cons,
      List.reverse_reverse]
    rw [hsplit]
    simp
  · simp [scan]

/-- Witness for C8 at the concrete environment whose `dump` raises after
truncating the output file. -/
theorem c8_write_failure_continues_witness :
    (extract_code_object envDumpFail none).ret = 1
    ∧ (extract_code_object envDumpFail none).outFile = some []
    ∧ (extract_code_object envDumpFail none).offsetsTried = List.range 2
    ∧ 0 ∈ (extract_code_object envDumpFail none).writeOffsets := by
  have h := c8_write_failure_continues envDumpFail [1, 2] none 0 5
    (.valueError "unmarshallable object") [] rfl (by decide) rfl
    (fun j hj hne => by
      have hj0 : j < 2 := by simpa using hj
      have hj2 : j = 1 := by omega
      subst hj2
      exact ⟨.eofError "EOF read where object expected", rfl, rfl⟩)
    rfl rfl rfl
  exact ⟨h.1, h.2.2.1, h.2.2.2.1, h.2.2.2.2⟩

/-- C4: round-trip — when the serialisation routines satisfy the
round-trip law, a run that reports success at offset `k` leaves output
bytes that deserialize to the very object recovered from `raw[k:]`. -/
theorem c4_roundtrip (env : Env Obj) (raw : List Nat) (init : Option (List Nat))
    (k : Nat)
    (hraw : env.raw = .ok raw)
    (hrt : ∀ (c : Obj) (b : List Nat), env.dump c = .ok b → env.loads b = .ok c)
    (hs : (extract_code_object env init).successOffset = some k) :
    ∃ c bytes, (extract_code_object env init).outFile = some bytes
      ∧ env.loads (raw.drop k) = .ok c
      ∧ env.loads bytes = .ok c := by
  have hext : extract_code_object env init
      = scan env raw (List.range (min 32 raw.length)) init [] [] := by
    simp [extract_code_object, hraw]
  rw [hext] at hs ⊢
  obtain ⟨c, b, h1, h2, h3⟩ :=
    scan_success_inv env raw (List.range (min 32 raw.length)) init [] [] k hs
  exact ⟨c, b, h3, h1, hrt c b h2⟩

/-- Witness for C4 at the concrete round-trip environment. -/
theorem c4_roundtrip_witness :
    (extract_code_object envRt none).outFile = some [9]
    ∧ envRt.loads [9] = Except.ok 9 := by
  obtain ⟨c, b, h1, h2, h3⟩ := c4_roundtrip envRt [9] none 0 rfl
    (fun c b hb => by
      have hb2 : [c] = b := by injection hb
      subst hb2
      rfl)
    (by decide)
  have hout : (extract_code_object envRt none).outFile = some [9] := by decide
  have hb : b = [9] := Option.some.inj (h1.symm.trans hout)
  have hc : c = 9 := by
    have h5 : envRt.loads [9] = Except.ok c := h2
    have h6 : envRt.loads [9] = Except.ok 9 := rfl
    exact Except.ok.inj (h5.symm.trans h6)
  subst hb
  subst hc
  exact ⟨hout, h3⟩

/-- C10: `extract_code_object` is deterministic — two runs whose
environments agree on the input bytes, the behaviour of the
deserialization and serialisation routines, and the output-open
behaviour produce identical outcomes. -/
theorem c10_deterministic (e1 e2 : Env Obj) (init : Option (List Nat))
    (hraw : e1.raw = e2.raw)
    (hloads : ∀ b, e1.loads b = e2.loads b)
    (hdump : ∀ c, e1.dump c = e2.dump c)
    (hopen : e1.openOutErr = e2.openOutErr) :
    extract_code_object e1 init = extract_code_object e2 init := by
  have h : e1 = e2 := by
    cases e1
    cases e2
    simp only [Env.mk.injEq]
    exact ⟨hraw, funext hloads, funext hdump, hopen⟩
  rw [h]

/-- Witness for C10 at two byte-for-byte identical environments. -/
theorem c10_deterministic_witness :
    extract_code_object envFail none = extract_code_object envFailCopy none :=
  c10_deterministic envFail envFailCopy none rfl (fun _ => rfl) (fun _ => rfl) rfl

end MarshalExtract
